import Mathlib

/-!
Verification of the community-feed backend (`main.py` / `schemas.py`):
the post/comment aggregation and ranking pipeline (`community_posts`),
the cheer increment (`cheer_post`), comment submission (`add_comment`),
post creation (`create_post`), comment listing (`list_comments`), and the
identifier-surfacing helper (`to_str_id`).

Documents live in a MongoDB-style store.  A stored document's native
identifier (`_id`, an `ObjectId`) is modelled by its hexadecimal string
rendering, so `str(_id)` is the identity; `ObjectId`s are assigned
monotonically at insertion, so sorting on `_id` descending is
"newest-first / descending insertion order".

Python string operations used by the handlers (`str.lower`, `str.strip`,
and lexicographic comparison, which the feed applies to ISO-format
timestamp strings) are modelled structurally over `List Char` so that all
definitions evaluate inside the kernel.
-/

/-- Lexicographic strict comparison of two character lists by code point:
the model of Python's `<` on strings, used by `list.sort` on the
`(_priority, _created_str)` keys and by the store's `_id` ordering. -/
def strLtB : List Char → List Char → Bool
  | [], [] => false
  | [], _ :: _ => true
  | _ :: _, [] => false
  | a :: as, b :: bs => decide (a < b) || (a == b && strLtB as bs)

/-- Non-strict string comparison (`a <= b` in Python). -/
def sLe (a b : String) : Bool := strLtB a.data b.data || a.data == b.data

/-- Model of Python's `str.lower()` (ASCII case folding suffices for the
sentinel comparisons `"you"` / `"growing"` made by the feed). -/
def lowerStr (s : String) : String := String.mk (s.data.map Char.toLower)

/-- Model of Python's `str.strip()`: drop leading and trailing whitespace. -/
def pyStrip (s : String) : String :=
  String.mk (((s.data.dropWhile Char.isWhitespace).reverse.dropWhile Char.isWhitespace).reverse)

theorem strLtB_irrefl : ∀ as : List Char, strLtB as as = false
  | [] => rfl
  | a :: as => by simp [strLtB, strLtB_irrefl as]

theorem strLtB_trans : ∀ a b c : List Char,
    strLtB a b = true → strLtB b c = true → strLtB a c = true
  | [], [], _, h1, _ => by simp [strLtB] at h1
  | _ :: _, [], _, h1, _ => by simp [strLtB] at h1
  | [], _ :: _, [], _, h2 => by simp [strLtB] at h2
  | _ :: _, _ :: _, [], _, h2 => by simp [strLtB] at h2
  | [], _ :: _, _ :: _, _, _ => rfl
  | x :: xs, y :: ys, z :: zs, h1, h2 => by
    simp only [strLtB, Bool.or_eq_true, Bool.and_eq_true, decide_eq_true_eq, beq_iff_eq]
      at h1 h2 ⊢
    rcases h1 with h1 | ⟨rfl, h1⟩
    · rcases h2 with h2 | ⟨rfl, h2⟩
      · exact Or.inl (lt_trans h1 h2)
      · exact Or.inl h1
    · rcases h2 with h2 | ⟨rfl, h2⟩
      · exact Or.inl h2
      · exact Or.inr ⟨rfl, strLtB_trans xs ys zs h1 h2⟩

theorem strLtB_total : ∀ a b : List Char,
    strLtB a b = true ∨ a = b ∨ strLtB b a = true
  | [], [] => Or.inr (Or.inl rfl)
  | [], _ :: _ => Or.inl rfl
  | _ :: _, [] => Or.inr (Or.inr rfl)
  | x :: xs, y :: ys => by
    rcases lt_trichotomy x y with h | rfl | h
    · exact Or.inl (by simp [strLtB, h])
    · rcases strLtB_total xs ys with h | h | h
      · exact Or.inl (by simp [strLtB, h])
      · exact Or.inr (Or.inl (by rw [h]))
      · exact Or.inr (Or.inr (by simp [strLtB, h]))
    · exact Or.inr (Or.inr (by simp [strLtB, h]))

theorem strLtB_asymm {a b : List Char} (h : strLtB a b = true) : strLtB b a = false := by
  cases hba : strLtB b a
  · rfl
  · have := strLtB_trans a b a h hba
    rw [strLtB_irrefl] at this
    exact absurd this (by simp)

theorem string_eq_of_data_eq {a b : String} (h : a.data = b.data) : a = b := by
  cases a
  cases b
  exact congrArg String.mk (by simpa using h)

theorem sLe_total (a b : String) : sLe a b = true ∨ sLe b a = true := by
  unfold sLe
  rcases strLtB_total a.data b.data with h | h | h
  · exact Or.inl (by simp [h])
  · exact Or.inl (by simp [h])
  · exact Or.inr (by simp [h])

theorem sLe_trans {a b c : String} (h1 : sLe a b = true) (h2 : sLe b c = true) :
    sLe a c = true := by
  unfold sLe at h1 h2 ⊢
  simp only [Bool.or_eq_true, beq_iff_eq] at h1 h2 ⊢
  rcases h1 with h1 | h1
  · rcases h2 with h2 | h2
    · exact Or.inl (strLtB_trans _ _ _ h1 h2)
    · exact Or.inl (h2 ▸ h1)
  · rcases h2 with h2 | h2
    · exact Or.inl (h1 ▸ h2)
    · exact Or.inr (h1.trans h2)

theorem sLe_antisymm {a b : String} (h1 : sLe a b = true) (h2 : sLe b a = true) :
    a = b := by
  unfold sLe at h1 h2
  simp only [Bool.or_eq_true, beq_iff_eq] at h1 h2
  rcases h1 with h1 | h1
  · rcases h2 with h2 | h2
    · have := strLtB_asymm h1
      rw [this] at h2
      exact absurd h2 (by simp)
    · exact string_eq_of_data_eq h2.symm
  · exact string_eq_of_data_eq h1

theorem sLe_of_strLtB {a b : String} (h : strLtB a.data b.data = true) : sLe a b = true := by
  unfold sLe
  simp [h]

theorem strLtB_of_sLe_ne {a b : String} (h : sLe a b = true) (hne : a ≠ b) :
    strLtB a.data b.data = true := by
  unfold sLe at h
  simp only [Bool.or_eq_true, beq_iff_eq] at h
  rcases h with h | h
  · exact h
  · exact absurd (string_eq_of_data_eq h) hne

/-! ## Data model

A stored post document (collection `"post"`): the fields written by
`create_post` / the seed routes, plus the store-assigned `_id` (modelled
as its string rendering `oid`) and the store-stamped creation timestamp.
`created_at` holds the ISO-format rendering that `community_posts`
computes into `_created_str` (`None`/absent becomes `""`). -/
structure PostDoc where
  oid : String
  user_id : String
  caption : String
  image_url : Option String
  hashtags : List String
  stage : Option String
  cheers : Nat
  created_at : Option String
deriving DecidableEq, Repr

/-- A stored comment document (collection `"comment"`): the fields written
by `add_comment`, plus the store-assigned `_id` rendered as `oid`. -/
structure CommentDoc where
  oid : String
  post_id : String
  user_id : String
  text : String
deriving DecidableEq, Repr

/-- A snapshot of the backing store.  `dbAvailable` models `db is not None`.
The store assigns `_id`s monotonically, so larger `oid` means inserted
later; the lists hold the documents of the `post` and `comment`
collections. -/
structure Store where
  dbAvailable : Bool
  posts : List PostDoc
  comments : List CommentDoc
deriving Repr

/-! ## Feed aggregation (`GET /community/posts`, `community_posts`) -/

/-- The `_priority` value computed per post:
`1 if (str(p.get("user_id", "")).lower() == "you" and str(p.get("stage", "")).lower() == "growing") else 0`. -/
def priorityFlag (p : PostDoc) : Nat :=
  if lowerStr p.user_id == "you" && lowerStr (p.stage.getD "") == "growing" then 1 else 0

/-- The `_created_str` value computed per post: the ISO rendering of
`created_at` when present, `""` otherwise. -/
def createdStr (p : PostDoc) : String := p.created_at.getD ""

/-- Ordering used by `find({}, sort=[("_id", -1)])` on posts: `_id` descending. -/
def postIdGe (a b : PostDoc) : Prop := sLe b.oid a.oid = true

instance : DecidableRel postIdGe := fun a b => instDecidableEqBool (sLe b.oid a.oid) true

instance : IsTotal PostDoc postIdGe := ⟨fun a b => sLe_total b.oid a.oid⟩

instance : IsTrans PostDoc postIdGe := ⟨fun _ _ _ h1 h2 => sLe_trans h2 h1⟩

/-- Ordering used by `find({"post_id": pid}, sort=[("_id", -1)], limit=5)` on
comments: `_id` descending, i.e. newest-first. -/
def commentIdGe (a b : CommentDoc) : Prop := sLe b.oid a.oid = true

instance : DecidableRel commentIdGe := fun a b => instDecidableEqBool (sLe b.oid a.oid) true

instance : IsTotal CommentDoc commentIdGe := ⟨fun a b => sLe_total b.oid a.oid⟩

instance : IsTrans CommentDoc commentIdGe := ⟨fun _ _ _ h1 h2 => sLe_trans h2 h1⟩

/-- The key order of `posts.sort(key=lambda x: (x.get("_priority", 0),
x.get("_created_str", "")), reverse=True)`: descending lexicographic on the
pair `(_priority, _created_str)`.  `a` may be placed before `b` exactly when
this relation holds. -/
def postKeyGe (a b : PostDoc) : Prop :=
  priorityFlag b < priorityFlag a ∨
    (priorityFlag a = priorityFlag b ∧ sLe (createdStr b) (createdStr a) = true)

instance : DecidableRel postKeyGe := fun a b => by unfold postKeyGe; infer_instance

instance : IsTotal PostDoc postKeyGe := by
  refine ⟨fun a b => ?_⟩
  unfold postKeyGe
  rcases Nat.lt_trichotomy (priorityFlag a) (priorityFlag b) with h | h | h
  · exact Or.inr (Or.inl h)
  · rcases sLe_total (createdStr b) (createdStr a) with hc | hc
    · exact Or.inl (Or.inr ⟨h, hc⟩)
    · exact Or.inr (Or.inr ⟨h.symm, hc⟩)
  · exact Or.inl (Or.inl h)

instance : IsTrans PostDoc postKeyGe := by
  refine ⟨fun a b c h1 h2 => ?_⟩
  unfold postKeyGe at h1 h2 ⊢
  rcases h1 with h1 | ⟨h1e, h1c⟩
  · rcases h2 with h2 | ⟨h2e, _⟩
    · exact Or.inl (lt_trans h2 h1)
    · exact Or.inl (h2e ▸ h1)
  · rcases h2 with h2 | ⟨h2e, h2c⟩
    · exact Or.inl (h1e ▸ h2)
    · exact Or.inr ⟨h1e.trans h2e, sLe_trans h2c h1c⟩

/-- The post list as fetched: `list(db["post"].find({}, sort=[("_id", -1)]))`. -/
def postsByIdDesc (s : Store) : List PostDoc := List.insertionSort postIdGe s.posts

/-- The fetched posts after the in-place stable
`posts.sort(key=..., reverse=True)` on `(_priority, _created_str)`. -/
def rankedPosts (s : Store) : List PostDoc :=
  List.insertionSort postKeyGe (postsByIdDesc s)

/-- The comments attached to a post:
`list(db["comment"].find({"post_id": pid}, sort=[("_id", -1)], limit=5))`. -/
def commentsForPid (s : Store) (pid : String) : List CommentDoc :=
  (List.insertionSort commentIdGe (s.comments.filter (fun c => c.post_id == pid))).take 5

/-- The reduced comment record attached to a feed post:
`{"id": c.get("id"), "user_id": c.get("user_id"), "text": c.get("text")}`. -/
structure CommentOut where
  id : String
  user_id : String
  text : String
deriving DecidableEq, Repr

/-- A feed post as returned by `community_posts`: the stored fields with
`_id` replaced by its string form `id` (`to_str_id`), the bookkeeping keys
`_priority` / `_created_str` popped, and the attached `comments`. -/
structure PostOut where
  id : String
  user_id : String
  caption : String
  image_url : Option String
  hashtags : List String
  stage : Option String
  cheers : Nat
  created_at : Option String
  comments : List CommentOut
deriving DecidableEq, Repr

def commentOut (c : CommentDoc) : CommentOut := ⟨c.oid, c.user_id, c.text⟩

def postOut (s : Store) (p : PostDoc) : PostOut :=
  { id := p.oid
    user_id := p.user_id
    caption := p.caption
    image_url := p.image_url
    hashtags := p.hashtags
    stage := p.stage
    cheers := p.cheers
    created_at := p.created_at
    comments := (commentsForPid s p.oid).map commentOut }

/-- `GET /community/posts`: returns `[]` when `db is None`; otherwise the
fetched posts, ranked, id-stringified, and each with its latest 5 comments
attached. -/
def community_posts (s : Store) : List PostOut :=
  if s.dbAvailable then (rankedPosts s).map (postOut s) else []

/-! ## Cheer increment (`POST /community/posts/{post_id}/cheer`, `cheer_post`) -/

/-- Response body of a successful cheer:
`{"ok": True, "cheers": r.get("cheers", 0), "id": r.get("id")}`. -/
structure CheerResp where
  ok : Bool
  cheers : Nat
  id : String
deriving DecidableEq, Repr

/-- Effect of `find_one_and_update({"_id": ...}, {"$inc": {"cheers": 1}})`:
increment the cheer counter of the first document whose `_id` matches. -/
def incFirst (pid : String) : List PostDoc → List PostDoc
  | [] => []
  | p :: ps =>
      if p.oid == pid then { p with cheers := p.cheers + 1 } :: ps
      else p :: incFirst pid ps

/-- `cheer_post`: HTTP 500 when `db is None`; otherwise atomically increment
and return the updated document (`return_document=True`), or HTTP 404 when no
post matches the identifier.  Returns the store after the call together with
the handler's outcome. -/
def cheer_post (s : Store) (post_id : String) : Store × Except Nat CheerResp :=
  if s.dbAvailable then
    match s.posts.find? (fun p => p.oid == post_id) with
    | some p =>
        ({ s with posts := incFirst post_id s.posts },
          Except.ok ⟨true, p.cheers + 1, p.oid⟩)
    | none => (s, Except.error 404)
  else (s, Except.error 500)

/-! ## Submission endpoints (`create_post`, `add_comment`, `list_comments`) -/

/-- Request model `CreatePost` of `POST /community/posts`. -/
structure CreatePost where
  name : String
  caption : String
  image_url : Option String
  hashtags : Option (List String)
  stage : Option String
deriving DecidableEq, Repr

/-- Request model `CreateComment` of `POST /community/posts/{post_id}/comments`:
`name: str` and `text: str`, both required, with no minimum length. -/
structure CreateComment where
  name : String
  text : String
deriving DecidableEq, Repr

/-- Response body `{"id": doc_id, "ok": True}` of the create endpoints. -/
structure CreateResp where
  id : String
  ok : Bool
deriving DecidableEq, Repr

/-- The stored author: `data.name.strip() or "guest"`. -/
def orGuest (name : String) : String :=
  if pyStrip name == "" then "guest" else pyStrip name

/-- `create_post`, the handler of `POST /community/posts`.

Modelled from the spec: `database.py` (the document-store adapter providing
`create_document`) is not under `src/`.  Per the spec's external-interface
contract, `create(collection, record) -> id` inserts the record and returns a
newly assigned unique identifier, and the stored post additionally carries a
creation timestamp; the fresh identifier and the timestamp the store attaches
are passed here as the parameters `newOid` and `createdAt`. -/
def create_post (newOid : String) (createdAt : Option String) (s : Store)
    (d : CreatePost) : Store × CreateResp :=
  ({ s with
      posts := s.posts ++
        [⟨newOid, orGuest d.name, d.caption, d.image_url, d.hashtags.getD [],
          d.stage, 0, createdAt⟩] },
    ⟨newOid, true⟩)

/-- `add_comment`, the handler of `POST /community/posts/{post_id}/comments`.

Modelled from the spec: `database.py` is not under `src/`; as for
`create_post`, the store-assigned fresh identifier is the parameter
`newOid`. -/
def add_comment (newOid : String) (s : Store) (post_id : String)
    (d : CreateComment) : Store × CreateResp :=
  ({ s with comments := s.comments ++ [⟨newOid, post_id, orGuest d.name, d.text⟩] },
    ⟨newOid, true⟩)

/-- A full comment record as returned by `list_comments` after `to_str_id`:
every stored field, with `_id` replaced by the string `id`. -/
structure CommentFull where
  id : String
  post_id : String
  user_id : String
  text : String
deriving DecidableEq, Repr

/-- `list_comments`, the handler of `GET /community/posts/{post_id}/comments`.

Modelled from the spec: `database.py`'s `get_documents` is not under `src/`;
per the spec's contract, `find(collection, filter)` returns the records
matching the equality filter. -/
def list_comments (s : Store) (post_id : String) : List CommentFull :=
  (s.comments.filter (fun c => c.post_id == post_id)).map
    (fun c => ⟨c.oid, c.post_id, c.user_id, c.text⟩)

/-! ## Request validation -/

/-- A raw JSON body for `POST .../comments`: each field may be absent. -/
structure CreateCommentPayload where
  name : Option String
  text : Option String
deriving DecidableEq, Repr

/-- Validation of a raw body against the `CreateComment` pydantic model:
both fields are required (FastAPI answers HTTP 422 when one is missing), and
any string — including the empty string — is accepted for `text`. -/
def parseCreateComment (p : CreateCommentPayload) : Except Nat CreateComment :=
  match p.name, p.text with
  | some n, some t => Except.ok ⟨n, t⟩
  | _, _ => Except.error 422

/-- The constraint `text: str = Field(..., min_length=1)` declared by the
`Comment` collection schema in `schemas.py`. -/
def commentSchemaOk (c : CommentDoc) : Bool := decide (1 ≤ c.text.length)

/-! ## Identifier surfacing (`to_str_id`) -/

/-- A store-native identifier value: an `ObjectId` (carrying its hex string
rendering) or some other raw value. -/
inductive MongoId where
  | objId : String → MongoId
  | other : String → MongoId
deriving DecidableEq, Repr

/-- The identifier-relevant part of a raw fetched document: the `_id` key
(when present) and the `id` key (when present). -/
structure RawDoc where
  rawId : Option MongoId
  idField : Option String
deriving DecidableEq, Repr

/-- One step of `to_str_id`: when `_id` is an `ObjectId`, pop it and store
its string form under `id`; otherwise leave the document untouched. -/
def to_str_id_one (d : RawDoc) : RawDoc :=
  match d.rawId with
  | some (MongoId.objId h) => { rawId := none, idField := some h }
  | _ => d

/-- `to_str_id(docs)`: apply the replacement to every document. -/
def to_str_id (ds : List RawDoc) : List RawDoc := ds.map to_str_id_one

instance {ε α : Type} [DecidableEq ε] [DecidableEq α] : DecidableEq (Except ε α) :=
  fun a b =>
    match a, b with
    | Except.ok x, Except.ok y => decidable_of_iff (x = y) (by simp)
    | Except.error x, Except.error y => decidable_of_iff (x = y) (by simp)
    | Except.ok _, Except.error _ => isFalse (by simp)
    | Except.error _, Except.ok _ => isFalse (by simp)

/-! ## Concrete instances used by the examples and witnesses -/

/-- The non-prioritized post with identifier `"a"` and timestamp `"3"` from the
spec's ranking example. -/
def exPostA : PostDoc := ⟨"a", "Ana", "third", none, [], none, 0, some "3"⟩

/-- The prioritized post (`user_id` `"You"`, `stage` `"Growing"`) with
identifier `"b"` and timestamp `"1"` from the spec's ranking example. -/
def exPostB : PostDoc := ⟨"b", "You", "first", none, [], some "Growing", 0, some "1"⟩

/-- The non-prioritized post with identifier `"c"` and timestamp `"2"` from the
spec's ranking example. -/
def exPostC : PostDoc := ⟨"c", "Cam", "second", none, [], none, 0, some "2"⟩

/-- The snapshot holding exactly the three posts of the spec's ranking
example. -/
def exampleStore : Store := ⟨true, [exPostA, exPostB, exPostC], []⟩

/-- A snapshot with a single post `"x"` whose cheer counter is `n`. -/
def cheerStoreX (n : Nat) : Store :=
  ⟨true, [⟨"x", "Maya", "my plant", none, [], none, n, none⟩], []⟩

/-- A snapshot whose database handle is unavailable (`db is None`) but whose
post collection is not empty. -/
def downStore : Store := ⟨false, [exPostA], []⟩

/-- The empty, available snapshot. -/
def emptyStore : Store := ⟨true, [], []⟩

/-! ## Helper lemmas -/

theorem find?_incFirst {pid : String} : ∀ {l : List PostDoc} {p : PostDoc},
    l.find? (fun q => q.oid == pid) = some p →
    (incFirst pid l).find? (fun q => q.oid == pid) =
      some { p with cheers := p.cheers + 1 } := by
  intro l
  induction l with
  | nil => intro p h; simp at h
  | cons q qs ih =>
    intro p h
    by_cases hq : q.oid = pid
    · rw [List.find?_cons_of_pos _ (by simp [hq])] at h
      injection h with h
      subst h
      unfold incFirst
      rw [if_pos (by simp [hq])]
      exact List.find?_cons_of_pos _ (by simp [hq])
    · rw [List.find?_cons_of_neg _ (by simp [hq])] at h
      unfold incFirst
      rw [if_neg (by simp [hq])]
      rw [List.find?_cons_of_neg _ (by simp [hq])]
      exact ih h

theorem eq_of_perm_of_pairwise_asymm {α : Type} {r : α → α → Prop}
    (hasym : ∀ a b, r a b → ¬ r b a) :
    ∀ (l₁ l₂ : List α), l₁.Perm l₂ → l₁.Pairwise r → l₂.Pairwise r → l₁ = l₂ := by
  intro l₁
  induction l₁ with
  | nil =>
    intro l₂ hp _ _
    exact (List.perm_nil.mp hp.symm).symm
  | cons x xs ih =>
    intro l₂ hp h₁ h₂
    cases l₂ with
    | nil => exact absurd (List.perm_nil.mp hp) (by simp)
    | cons y ys =>
      by_cases hxy : x = y
      · subst hxy
        rw [ih ys hp.cons_inv (List.pairwise_cons.mp h₁).2 (List.pairwise_cons.mp h₂).2]
      · have hx2 : x ∈ y :: ys := hp.mem_iff.mp (List.mem_cons_self x xs)
        have hxys : x ∈ ys := by
          rcases List.mem_cons.mp hx2 with h | h
          · exact absurd h hxy
          · exact h
        have hy1 : y ∈ x :: xs := hp.mem_iff.mpr (List.mem_cons_self y ys)
        have hyxs : y ∈ xs := by
          rcases List.mem_cons.mp hy1 with h | h
          · exact absurd h.symm hxy
          · exact h
        have hrxy : r x y := (List.pairwise_cons.mp h₁).1 y hyxs
        have hryx : r y x := (List.pairwise_cons.mp h₂).1 x hxys
        exact absurd hryx (hasym x y hrxy)

/-! ## Claim C1: feed ordering -/

/-- C1 (counterexample): on the spec's three-post example the feed does not
come out in the claimed order `[b, c, a]` — the secondary key is
most-recent-first, so among the two non-prioritized posts the one with the
larger timestamp (`a`, ts 3) precedes the one with the smaller (`c`, ts 2),
giving `[b, a, c]`. -/
theorem feed_example_order_counterexample :
    (community_posts exampleStore).map (fun p => p.id) = ["b", "a", "c"] ∧
    (community_posts exampleStore).map (fun p => p.id) ≠ ["b", "c", "a"] :=
  ⟨by decide, by decide⟩

/-- C1 (amended): the feed orders posts by the two-part key (priority flag —
set exactly when the pinned condition on author/stage holds — sorting first,
then creation timestamp most-recent-first): the ranked sequence is pairwise
sorted by that descending lexicographic key, in particular a prioritized post
sorts before every non-prioritized post regardless of timestamps, and the
example posts come out in the order `[b, a, c]`. -/
theorem feed_ranking_amended :
    (∀ s : Store, (rankedPosts s).Pairwise postKeyGe) ∧
    (∀ s : Store, (rankedPosts s).Pairwise
      (fun a b => priorityFlag b ≤ priorityFlag a)) ∧
    (community_posts exampleStore).map (fun p => p.id) = ["b", "a", "c"] := by
  refine ⟨fun s => List.sorted_insertionSort postKeyGe _, fun s => ?_, by decide⟩
  refine List.Pairwise.imp ?_ (List.sorted_insertionSort postKeyGe _)
  intro a b h
  rcases h with h | ⟨h, _⟩
  · exact le_of_lt h
  · exact le_of_eq h.symm

/-- Witness for C1 at the example snapshot. -/
theorem feed_ranking_amended_witness :
    (rankedPosts exampleStore).Pairwise (fun a b => priorityFlag b ≤ priorityFlag a) ∧
    (community_posts exampleStore).map (fun p => p.id) = ["b", "a", "c"] :=
  ⟨feed_ranking_amended.2.1 exampleStore, feed_ranking_amended.2.2⟩

/-! ## Claim C3: cheer increments by one -/

/-- C3: cheering an existing post answers with the post's identifier and its
cheer counter incremented by exactly one, the stored counter becomes the old
value plus one, and three sequential cheers on a post with counter 5 return
6, then 7, then 8. -/
theorem cheer_increments_by_one :
    (∀ (s : Store) (pid : String) (p : PostDoc), s.dbAvailable = true →
        s.posts.find? (fun q => q.oid == pid) = some p →
        (cheer_post s pid).2 = Except.ok ⟨true, p.cheers + 1, p.oid⟩ ∧
        ((cheer_post s pid).1).posts.find? (fun q => q.oid == pid) =
          some { p with cheers := p.cheers + 1 }) ∧
    ((cheer_post (cheerStoreX 5) "x").2 = Except.ok ⟨true, 6, "x"⟩ ∧
      (cheer_post (cheer_post (cheerStoreX 5) "x").1 "x").2 = Except.ok ⟨true, 7, "x"⟩ ∧
      (cheer_post (cheer_post (cheer_post (cheerStoreX 5) "x").1 "x").1 "x").2 =
        Except.ok ⟨true, 8, "x"⟩) := by
  constructor
  · intro s pid p hdb hfind
    constructor
    · simp [cheer_post, hdb, hfind]
    · simp only [cheer_post, hdb, hfind, if_true]
      exact find?_incFirst hfind
  · exact ⟨by decide, by decide, by decide⟩

/-- Witness for C3 on the one-post snapshot with counter 5. -/
theorem cheer_increments_by_one_witness :
    (cheer_post (cheerStoreX 5) "x").2 = Except.ok ⟨true, 6, "x"⟩ ∧
    ((cheer_post (cheerStoreX 5) "x").1).posts.find? (fun q => q.oid == "x") =
      some ⟨"x", "Maya", "my plant", none, [], none, 6, none⟩ := by
  have h := cheer_increments_by_one.1 (cheerStoreX 5) "x"
    ⟨"x", "Maya", "my plant", none, [], none, 5, none⟩ (by decide) (by decide)
  exact ⟨h.1, h.2⟩

/-! ## Claim C4: cheer on a missing identifier -/

/-- C4: when no stored post carries the requested identifier, `cheer_post`
fails with HTTP 404 and the store is returned unchanged — no record is
created. -/
theorem cheer_missing_post_notfound :
    ∀ (s : Store) (pid : String), s.dbAvailable = true →
      (∀ q ∈ s.posts, q.oid ≠ pid) →
      cheer_post s pid = (s, Except.error 404) := by
  intro s pid hdb hnone
  have hfind : s.posts.find? (fun q => q.oid == pid) = none := by
    rw [List.find?_eq_none]
    intro x hx
    simpa using hnone x hx
  simp [cheer_post, hdb, hfind]

/-- Witness for C4: cheering the unknown identifier `"zzz"`. -/
theorem cheer_missing_post_notfound_witness :
    cheer_post (cheerStoreX 5) "zzz" = ((cheerStoreX 5), Except.error 404) :=
  cheer_missing_post_notfound (cheerStoreX 5) "zzz" (by decide) (by decide)

/-! ## Claim C7: comment submission validation -/

/-- C7: a comment body with a missing `text` field is rejected with HTTP 422,
but — contrary to the spec and to the `Comment` collection schema's
`min_length=1` — a body whose `text` is the empty string passes the
`CreateComment` model, and the resulting comment with empty text is stored,
violating `commentSchemaOk`. -/
theorem empty_comment_text_accepted :
    parseCreateComment ⟨some "Ava", none⟩ = Except.error 422 ∧
    parseCreateComment ⟨some "Ava", some ""⟩ = Except.ok ⟨"Ava", ""⟩ ∧
    ((add_comment "c1" emptyStore "p1" ⟨"Ava", ""⟩).1).comments =
      [⟨"c1", "p1", "Ava", ""⟩] ∧
    commentSchemaOk ⟨"c1", "p1", "Ava", ""⟩ = false :=
  ⟨by decide, by decide, by decide, by decide⟩

/-! ## Claim C8: store unavailable -/

/-- C8 (counterexample): with the database handle unavailable and a non-empty
post collection, the feed aggregation does not propagate a failure — it
returns the empty list as a success value. -/
theorem feed_store_down_counterexample :
    downStore.dbAvailable = false ∧ downStore.posts ≠ [] ∧
      community_posts downStore = [] :=
  ⟨rfl, by decide, by decide⟩

/-- C8 (amended): when the store handle is unavailable the cheer operation
fails with a 500-equivalent error and the store is unchanged, but the feed
aggregation instead substitutes a success value: it returns the empty
list. -/
theorem store_down_behaviour :
    (∀ (s : Store) (pid : String), s.dbAvailable = false →
        cheer_post s pid = (s, Except.error 500)) ∧
    (∀ s : Store, s.dbAvailable = false → community_posts s = []) := by
  constructor
  · intro s pid h
    simp [cheer_post, h]
  · intro s h
    simp [community_posts, h]

/-- Witness for C8 at the unavailable snapshot. -/
theorem store_down_behaviour_witness :
    cheer_post downStore "a" = (downStore, Except.error 500) ∧
      community_posts downStore = [] :=
  ⟨store_down_behaviour.1 downStore "a" rfl, store_down_behaviour.2 downStore rfl⟩

/-! ## Claim C10: stored author and initial cheer counter -/

/-- C10: both creation handlers store as author the submitted name with
surrounding whitespace stripped, falling back to `"guest"` when the stripped
name is empty; and every post created through `create_post` starts with a
cheer counter of exactly 0 (the request model has no cheer field at all). -/
theorem author_default_and_zero_cheers :
    (∀ (newOid : String) (createdAt : Option String) (s : Store) (d : CreatePost),
        ∃ p : PostDoc, ((create_post newOid createdAt s d).1).posts = s.posts ++ [p] ∧
          (pyStrip d.name ≠ "" → p.user_id = pyStrip d.name) ∧
          (pyStrip d.name = "" → p.user_id = "guest") ∧
          p.cheers = 0) ∧
    (∀ (newOid : String) (s : Store) (pid : String) (d : CreateComment),
        ∃ c : CommentDoc, ((add_comment newOid s pid d).1).comments = s.comments ++ [c] ∧
          (pyStrip d.name ≠ "" → c.user_id = pyStrip d.name) ∧
          (pyStrip d.name = "" → c.user_id = "guest")) := by
  constructor
  · intro newOid createdAt s d
    refine ⟨_, rfl, ?_, ?_, rfl⟩
    · intro h
      simp [orGuest, h]
    · intro h
      simp [orGuest, h]
  · intro newOid s pid d
    refine ⟨_, rfl, ?_, ?_⟩
    · intro h
      simp [orGuest, h]
    · intro h
      simp [orGuest, h]

/-- Witness for C10: a whitespace-only post author falls back to `"guest"`,
and a padded comment author is stored stripped. -/
theorem author_default_and_zero_cheers_witness :
    (∃ p : PostDoc,
        ((create_post "p9" none emptyStore ⟨"  ", "hi", none, none, none⟩).1).posts =
          emptyStore.posts ++ [p] ∧
        (pyStrip "  " ≠ "" → p.user_id = pyStrip "  ") ∧
        (pyStrip "  " = "" → p.user_id = "guest") ∧ p.cheers = 0) ∧
    (∃ c : CommentDoc,
        ((add_comment "c9" emptyStore "p1" ⟨" Ava ", "nice"⟩).1).comments =
          emptyStore.comments ++ [c] ∧
        (pyStrip " Ava " ≠ "" → c.user_id = pyStrip " Ava ") ∧
        (pyStrip " Ava " = "" → c.user_id = "guest")) :=
  ⟨author_default_and_zero_cheers.1 "p9" none emptyStore ⟨"  ", "hi", none, none, none⟩,
   author_default_and_zero_cheers.2 "c9" emptyStore "p1" ⟨" Ava ", "nice"⟩⟩

/-! ## Claim C2: comments attached to a feed post -/

theorem mem_of_mem_commentsForPid {s : Store} {pid : String} {d : CommentDoc}
    (h : d ∈ commentsForPid s pid) : d ∈ s.comments ∧ d.post_id = pid := by
  unfold commentsForPid at h
  have h1 := List.take_subset 5 _ h
  rw [List.mem_insertionSort, List.mem_filter] at h1
  exact ⟨h1.1, by simpa using h1.2⟩

theorem commentsForPid_sorted (s : Store) (pid : String) :
    (commentsForPid s pid).Pairwise commentIdGe := by
  unfold commentsForPid
  exact List.Pairwise.take (List.sorted_insertionSort commentIdGe _)

theorem commentsForPid_complete {s : Store} {pid : String}
    (hlen : (s.comments.filter (fun c => c.post_id == pid)).length ≤ 5)
    {d : CommentDoc} (hd : d ∈ s.comments) (hpid : d.post_id = pid) :
    d ∈ commentsForPid s pid := by
  unfold commentsForPid
  rw [List.take_of_length_le]
  · rw [List.mem_insertionSort, List.mem_filter]
    exact ⟨hd, by simp [hpid]⟩
  · rw [(List.perm_insertionSort _ _).length_eq]
    exact hlen

/-- C2: every comment attached to a feed post references that post's
identifier and is the three-field reduction of a stored comment; at most 5
are attached; they are ordered newest-first (descending store identifier,
i.e. descending insertion); whenever at most 5 stored comments match, every
matching comment is attached; a matching comment can only be left out when
the full 5 slots are taken; and every matching comment left out is no newer
than any attached one — so the attached comments are exactly the most
recent (at most 5) matching ones. -/
theorem feed_comments_attachment :
    ∀ (s : Store) (p : PostOut), p ∈ community_posts s →
      (∀ c ∈ p.comments, ∃ d ∈ s.comments, d.post_id = p.id ∧ c = commentOut d) ∧
      p.comments.length ≤ 5 ∧
      p.comments.Pairwise (fun a b => sLe b.id a.id = true) ∧
      ((s.comments.filter (fun c => c.post_id == p.id)).length ≤ 5 →
        ∀ d ∈ s.comments, d.post_id = p.id → commentOut d ∈ p.comments) ∧
      (∀ d ∈ s.comments, d.post_id = p.id → commentOut d ∉ p.comments →
        p.comments.length = 5) ∧
      (∀ d ∈ s.comments, d.post_id = p.id → commentOut d ∉ p.comments →
        ∀ c ∈ p.comments, sLe d.oid c.id = true) := by
  intro s p hp
  cases hdb : s.dbAvailable with
  | false => simp [community_posts, hdb] at hp
  | true =>
    rw [community_posts, hdb, if_pos rfl, List.mem_map] at hp
    obtain ⟨q, _, rfl⟩ := hp
    have hcom : (postOut s q).comments = (commentsForPid s q.oid).map commentOut := rfl
    have hid : (postOut s q).id = q.oid := rfl
    refine ⟨?_, ?_, ?_, ?_, ?_, ?_⟩
    · intro c hc
      rw [hcom, List.mem_map] at hc
      obtain ⟨d, hd, rfl⟩ := hc
      obtain ⟨hmem, hpid⟩ := mem_of_mem_commentsForPid hd
      exact ⟨d, hmem, by rw [hid, hpid], rfl⟩
    · rw [hcom, List.length_map]
      unfold commentsForPid
      exact List.length_take_le 5 _
    · rw [hcom, List.pairwise_map]
      exact List.Pairwise.imp (fun h => h) (commentsForPid_sorted s q.oid)
    · intro hlen d hd hpid
      rw [hid] at hlen hpid
      rw [hcom]
      exact List.mem_map_of_mem commentOut (commentsForPid_complete hlen hd hpid)
    · intro d hd hpid hnot
      rw [hid] at hpid
      by_cases hlen : (s.comments.filter (fun c => c.post_id == q.oid)).length ≤ 5
      · refine absurd ?_ hnot
        rw [hcom]
        exact List.mem_map_of_mem commentOut (commentsForPid_complete hlen hd hpid)
      · rw [hcom, List.length_map]
        unfold commentsForPid
        rw [List.length_take, (List.perm_insertionSort _ _).length_eq]
        omega
    · intro d hd hpid hnot c hc
      rw [hid] at hpid
      have hdnottake : d ∉ commentsForPid s q.oid := by
        intro hmem
        refine hnot ?_
        rw [hcom]
        exact List.mem_map_of_mem commentOut hmem
      have hdsorted : d ∈ List.insertionSort commentIdGe
          (s.comments.filter (fun x => x.post_id == q.oid)) := by
        rw [List.mem_insertionSort, List.mem_filter]
        exact ⟨hd, by simp [hpid]⟩
      have hddrop : d ∈ (List.insertionSort commentIdGe
          (s.comments.filter (fun x => x.post_id == q.oid))).drop 5 := by
        rcases List.mem_append.mp (show d ∈ (List.insertionSort commentIdGe
            (s.comments.filter (fun x => x.post_id == q.oid))).take 5 ++
            (List.insertionSort commentIdGe
              (s.comments.filter (fun x => x.post_id == q.oid))).drop 5 by
          rw [List.take_append_drop]
          exact hdsorted) with h | h
        · refine absurd h ?_
          unfold commentsForPid at hdnottake
          exact hdnottake
        · exact h
      rw [hcom, List.mem_map] at hc
      obtain ⟨e, he, rfl⟩ := hc
      have hcross := (List.pairwise_append.mp (show List.Pairwise commentIdGe
          ((List.insertionSort commentIdGe
              (s.comments.filter (fun x => x.post_id == q.oid))).take 5 ++
            (List.insertionSort commentIdGe
              (s.comments.filter (fun x => x.post_id == q.oid))).drop 5) by
        rw [List.take_append_drop]
        exact List.sorted_insertionSort commentIdGe _)).2.2
      exact hcross e he d hddrop

/-- A concrete post document used by the comment-attachment witness. -/
def postP1 : PostDoc := ⟨"p1", "Maya", "my plant", none, [], none, 0, none⟩

/-- A snapshot with one post and three comments, one of which references a
different post. -/
def commentStore : Store :=
  ⟨true, [postP1],
    [⟨"c1", "p1", "Ava", "t1"⟩, ⟨"c2", "p1", "Bo", "t2"⟩, ⟨"c3", "p2", "Cy", "t3"⟩]⟩

/-- Witness for C2 at a snapshot with one post and three comments. -/
theorem feed_comments_attachment_witness :
    (postOut commentStore postP1) ∈ community_posts commentStore ∧
    (postOut commentStore postP1).comments.length ≤ 5 ∧
    (postOut commentStore postP1).comments.Pairwise
      (fun a b => sLe b.id a.id = true) := by
  have hmem : (postOut commentStore postP1) ∈ community_posts commentStore := by decide
  have h := feed_comments_attachment commentStore _ hmem
  exact ⟨hmem, h.2.1, h.2.2.1⟩

/-! ## Claim C5: the cheer operation's frame -/

/-- The frame relation between a stored post before and after a cheer call
aimed at identifier `pid`: all fields other than the cheer counter are
unchanged, the counter grows by at most one, and a post whose identifier is
not `pid` is wholly unchanged. -/
def cheerFrame (pid : String) (p q : PostDoc) : Prop :=
  q.oid = p.oid ∧ q.user_id = p.user_id ∧ q.caption = p.caption ∧
  q.image_url = p.image_url ∧ q.hashtags = p.hashtags ∧ q.stage = p.stage ∧
  q.created_at = p.created_at ∧ (q.cheers = p.cheers ∨ q.cheers = p.cheers + 1) ∧
  (p.oid ≠ pid → q = p)

theorem forall₂_cheerFrame_refl (pid : String) :
    ∀ l : List PostDoc, List.Forall₂ (cheerFrame pid) l l
  | [] => List.Forall₂.nil
  | _ :: ps =>
      List.Forall₂.cons
        ⟨rfl, rfl, rfl, rfl, rfl, rfl, rfl, Or.inl rfl, fun _ => rfl⟩
        (forall₂_cheerFrame_refl pid ps)

theorem incFirst_frame (pid : String) :
    ∀ l : List PostDoc, List.Forall₂ (cheerFrame pid) l (incFirst pid l)
  | [] => List.Forall₂.nil
  | p :: ps => by
      unfold incFirst
      by_cases h : p.oid = pid
      · rw [if_pos (by simp [h])]
        exact List.Forall₂.cons
          ⟨rfl, rfl, rfl, rfl, rfl, rfl, rfl, Or.inr rfl, fun hne => absurd h hne⟩
          (forall₂_cheerFrame_refl pid ps)
      · rw [if_neg (by simp [h])]
        exact List.Forall₂.cons
          ⟨rfl, rfl, rfl, rfl, rfl, rfl, rfl, Or.inl rfl, fun _ => rfl⟩
          (incFirst_frame pid ps)

/-- C5: a cheer call leaves the comment collection untouched and relates the
post collection before and after by the frame `cheerFrame`: every post keeps
its author, caption, image, hashtags, stage, creation timestamp and
identifier, only a cheer counter can change (by exactly one), and every post
other than the targeted one is wholly unchanged. -/
theorem cheer_frame_effect :
    ∀ (s : Store) (pid : String),
      ((cheer_post s pid).1).comments = s.comments ∧
      List.Forall₂ (cheerFrame pid) s.posts ((cheer_post s pid).1).posts := by
  intro s pid
  cases hdb : s.dbAvailable with
  | false =>
    simp only [cheer_post, hdb, Bool.false_eq_true, if_false]
    exact ⟨trivial, forall₂_cheerFrame_refl pid s.posts⟩
  | true =>
    cases hfind : s.posts.find? (fun p => p.oid == pid) with
    | none =>
      simp only [cheer_post, hdb, if_true, hfind]
      exact ⟨trivial, forall₂_cheerFrame_refl pid s.posts⟩
    | some _ =>
      simp only [cheer_post, hdb, if_true, hfind]
      exact ⟨trivial, incFirst_frame pid s.posts⟩

/-- Witness for C5 at the one-post snapshot. -/
theorem cheer_frame_effect_witness :
    ((cheer_post (cheerStoreX 5) "x").1).comments = (cheerStoreX 5).comments ∧
    List.Forall₂ (cheerFrame "x") (cheerStoreX 5).posts
      ((cheer_post (cheerStoreX 5) "x").1).posts :=
  cheer_frame_effect (cheerStoreX 5) "x"

/-! ## Claim C6: the feed order is deterministic -/

/-- Strict descending order on post store identifiers. -/
def postOidLt (a b : PostDoc) : Prop := strLtB b.oid.data a.oid.data = true

/-- Strict descending order on comment store identifiers. -/
def commentOidLt (a b : CommentDoc) : Prop := strLtB b.oid.data a.oid.data = true

theorem postOidLt_asymm : ∀ a b : PostDoc, postOidLt a b → ¬ postOidLt b a := by
  intro a b h hc
  unfold postOidLt at h hc
  rw [strLtB_asymm h] at hc
  exact absurd hc (by simp)

theorem commentOidLt_asymm : ∀ a b : CommentDoc, commentOidLt a b → ¬ commentOidLt b a := by
  intro a b h hc
  unfold commentOidLt at h hc
  rw [strLtB_asymm h] at hc
  exact absurd hc (by simp)

theorem sortPostsById_eq {l₁ l₂ : List PostDoc} (hperm : l₁.Perm l₂)
    (hnd : (l₁.map PostDoc.oid).Nodup) :
    List.insertionSort postIdGe l₁ = List.insertionSort postIdGe l₂ := by
  have hstr : ∀ l : List PostDoc, (l.map PostDoc.oid).Nodup →
      (List.insertionSort postIdGe l).Pairwise postOidLt := by
    intro l hl
    have hsorted : (List.insertionSort postIdGe l).Pairwise postIdGe :=
      List.sorted_insertionSort postIdGe l
    have hnodup : ((List.insertionSort postIdGe l).map PostDoc.oid).Nodup :=
      (List.Perm.nodup_iff (List.Perm.map PostDoc.oid (List.perm_insertionSort postIdGe l))).mpr hl
    have hne : (List.insertionSort postIdGe l).Pairwise (fun a b => a.oid ≠ b.oid) :=
      List.pairwise_map.mp hnodup
    refine List.Pairwise.imp ?_ (hsorted.and hne)
    intro a b hab
    exact strLtB_of_sLe_ne hab.1 (fun he => hab.2 he.symm)
  exact eq_of_perm_of_pairwise_asymm postOidLt_asymm _ _
    (((List.perm_insertionSort postIdGe l₁).trans hperm).trans
      (List.perm_insertionSort postIdGe l₂).symm)
    (hstr l₁ hnd)
    (hstr l₂ ((List.Perm.nodup_iff (List.Perm.map PostDoc.oid hperm)).mp hnd))

theorem sortCommentsById_eq {l₁ l₂ : List CommentDoc} (hperm : l₁.Perm l₂)
    (hnd : (l₁.map CommentDoc.oid).Nodup) :
    List.insertionSort commentIdGe l₁ = List.insertionSort commentIdGe l₂ := by
  have hstr : ∀ l : List CommentDoc, (l.map CommentDoc.oid).Nodup →
      (List.insertionSort commentIdGe l).Pairwise commentOidLt := by
    intro l hl
    have hsorted : (List.insertionSort commentIdGe l).Pairwise commentIdGe :=
      List.sorted_insertionSort commentIdGe l
    have hnodup : ((List.insertionSort commentIdGe l).map CommentDoc.oid).Nodup :=
      (List.Perm.nodup_iff (List.Perm.map CommentDoc.oid
        (List.perm_insertionSort commentIdGe l))).mpr hl
    have hne : (List.insertionSort commentIdGe l).Pairwise (fun a b => a.oid ≠ b.oid) :=
      List.pairwise_map.mp hnodup
    refine List.Pairwise.imp ?_ (hsorted.and hne)
    intro a b hab
    exact strLtB_of_sLe_ne hab.1 (fun he => hab.2 he.symm)
  exact eq_of_perm_of_pairwise_asymm commentOidLt_asymm _ _
    (((List.perm_insertionSort commentIdGe l₁).trans hperm).trans
      (List.perm_insertionSort commentIdGe l₂).symm)
    (hstr l₁ hnd)
    (hstr l₂ ((List.Perm.nodup_iff (List.Perm.map CommentDoc.oid hperm)).mp hnd))

/-- C6: the feed is a deterministic function of the snapshot: two snapshots
holding the same availability flag and the same sets of posts and comments
(in any enumeration order, with store identifiers unique as the store
guarantees) produce identical feed outputs; in particular re-running on the
same snapshot yields the same sequence in the same order. -/
theorem feed_deterministic :
    ∀ s₁ s₂ : Store, s₁.dbAvailable = s₂.dbAvailable →
      s₁.posts.Perm s₂.posts → s₁.comments.Perm s₂.comments →
      (s₁.posts.map PostDoc.oid).Nodup → (s₁.comments.map CommentDoc.oid).Nodup →
      community_posts s₁ = community_posts s₂ := by
  intro s₁ s₂ hdb hpp hcp hnp hnc
  have hranked : rankedPosts s₁ = rankedPosts s₂ := by
    unfold rankedPosts postsByIdDesc
    rw [sortPostsById_eq hpp hnp]
  have hcomments : ∀ pid, commentsForPid s₁ pid = commentsForPid s₂ pid := by
    intro pid
    unfold commentsForPid
    rw [sortCommentsById_eq (List.Perm.filter _ hcp)
      (List.Sublist.nodup (List.Sublist.map _ (List.filter_sublist _)) hnc)]
  have hout : postOut s₁ = postOut s₂ := by
    funext q
    unfold postOut
    rw [hcomments q.oid]
  unfold community_posts
  rw [hdb, hranked, hout]

/-- A snapshot with two posts and one comment, posts listed in one order. -/
def permStoreA : Store := ⟨true, [exPostA, exPostB], [⟨"c1", "a", "Ava", "t"⟩]⟩

/-- The same snapshot with the posts enumerated in the opposite order. -/
def permStoreB : Store := ⟨true, [exPostB, exPostA], [⟨"c1", "a", "Ava", "t"⟩]⟩

/-- Witness for C6: the two enumerations produce the same feed. -/
theorem feed_deterministic_witness :
    community_posts permStoreA = community_posts permStoreB :=
  feed_deterministic permStoreA permStoreB rfl
    (List.Perm.swap exPostB exPostA []) (List.Perm.refl _) (by decide) (by decide)

/-! ## Claim C9: surfaced identifiers are opaque strings -/

/-- C9: `to_str_id` removes every store-native `ObjectId` `_id` and replaces
it by its string form under `id`; and every identifier surfaced by the feed
aggregation, the cheer response, and the comment listing is the string
rendering of a stored document's native identifier. -/
theorem surfaced_ids_are_strings :
    (∀ ds : List RawDoc, (∀ d ∈ ds, ∃ h, d.rawId = some (MongoId.objId h)) →
        ∀ d' ∈ to_str_id ds, d'.rawId = none ∧ ∃ h, d'.idField = some h) ∧
    (∀ (d : RawDoc) (h : String), d.rawId = some (MongoId.objId h) →
        to_str_id_one d = ⟨none, some h⟩) ∧
    (∀ (s : Store) (p : PostOut), p ∈ community_posts s →
        (∃ q ∈ s.posts, p.id = q.oid) ∧
        ∀ c ∈ p.comments, ∃ d ∈ s.comments, c.id = d.oid) ∧
    (∀ (s : Store) (pid : String) (r : CheerResp),
        (cheer_post s pid).2 = Except.ok r → ∃ q ∈ s.posts, r.id = q.oid) ∧
    (∀ (s : Store) (pid : String) (c : CommentFull), c ∈ list_comments s pid →
        ∃ d ∈ s.comments, c.id = d.oid) := by
  refine ⟨?_, ?_, ?_, ?_, ?_⟩
  · intro ds hall d' hd'
    rw [to_str_id, List.mem_map] at hd'
    obtain ⟨d, hd, rfl⟩ := hd'
    obtain ⟨h, hh⟩ := hall d hd
    refine ⟨by simp [to_str_id_one, hh], h, by simp [to_str_id_one, hh]⟩
  · intro d h hh
    simp [to_str_id_one, hh]
  · intro s p hp
    cases hdbv : s.dbAvailable with
    | false => simp [community_posts, hdbv] at hp
    | true =>
      rw [community_posts, hdbv, if_pos rfl, List.mem_map] at hp
      obtain ⟨q, hq, rfl⟩ := hp
      have h1 : q ∈ postsByIdDesc s := by
        unfold rankedPosts at hq
        exact (List.mem_insertionSort _).mp hq
      have h2 : q ∈ s.posts := by
        unfold postsByIdDesc at h1
        exact (List.mem_insertionSort _).mp h1
      refine ⟨⟨q, h2, rfl⟩, ?_⟩
      intro c hc
      have hcom : (postOut s q).comments = (commentsForPid s q.oid).map commentOut := rfl
      rw [hcom, List.mem_map] at hc
      obtain ⟨d, hd, rfl⟩ := hc
      exact ⟨d, (mem_of_mem_commentsForPid hd).1, rfl⟩
  · intro s pid r hr
    cases hdbv : s.dbAvailable with
    | false => simp [cheer_post, hdbv] at hr
    | true =>
      cases hfind : s.posts.find? (fun p => p.oid == pid) with
      | none => simp [cheer_post, hdbv, hfind] at hr
      | some p =>
        simp only [cheer_post, hdbv, if_true, hfind] at hr
        injection hr with hr
        exact ⟨p, List.mem_of_find?_eq_some hfind, by rw [← hr]⟩
  · intro s pid c hc
    rw [list_comments, List.mem_map] at hc
    obtain ⟨d, hd, rfl⟩ := hc
    exact ⟨d, (List.mem_filter.mp hd).1, rfl⟩

/-- Witness for C9: a raw `ObjectId` document is converted, and the cheer
response's identifier comes from the stored post. -/
theorem surfaced_ids_are_strings_witness :
    to_str_id_one ⟨some (MongoId.objId "abc"), none⟩ =
      (⟨none, some "abc"⟩ : RawDoc) ∧
    (∃ q ∈ (cheerStoreX 5).posts, (⟨true, 6, "x"⟩ : CheerResp).id = q.oid) :=
  ⟨surfaced_ids_are_strings.2.1 ⟨some (MongoId.objId "abc"), none⟩ "abc" rfl,
   surfaced_ids_are_strings.2.2.2.1 (cheerStoreX 5) "x" ⟨true, 6, "x"⟩ (by decide)⟩
